import Mathlib

/-!
Shallow embedding of the business-card indexing and search engine
(src/src/search_engine.py together with src/src/business_card_processor.py).

Python dictionaries parsed from JSON are modelled by the inductive `Json`;
Python exceptions are modelled by the error type `PyErr` together with
`Except`-valued functions.  The opaque external collaborators (the Gemini
embedding function, ChromaDB's nearest-neighbor index, and the standard
library JSON codec) are taken as parameters of the operations that use them,
exactly at the call sites where the source invokes them.
-/

set_option autoImplicit false

namespace BusinessCard

/-- Json models a parsed Python JSON value (the result of json.loads):
None, bool, int, str, list and dict, with dicts kept as ordered key/value
association lists the way CPython preserves insertion order. -/
inductive Json where
  | null : Json
  | bool (b : Bool) : Json
  | num (n : Int) : Json
  | str (s : String) : Json
  | arr (xs : List Json) : Json
  | obj (kvs : List (String × Json)) : Json

/-- PyErr models the Python exception classes that the translated code can
raise or catch.  storeError stands for any exception raised inside the
opaque ChromaDB / embedding calls. -/
inductive PyErr where
  | keyError : PyErr
  | indexError : PyErr
  | typeError : PyErr
  | attributeError : PyErr
  | jsonDecodeError : PyErr
  | storeError : PyErr
deriving DecidableEq, Repr

/-- objLookup is Python dict key lookup on the association-list view of a
dict: the value of the first matching key, if any. -/
def objLookup (kvs : List (String × Json)) (k : String) : Option Json :=
  match kvs with
  | [] => none
  | (k2, v) :: rest => if k2 = k then some v else objLookup rest k

/-- pyGet is Python d.get(k, default): default when the key is absent;
AttributeError when the receiver is not a dict (no .get method). -/
def pyGet (j : Json) (k : String) (default : Json) : Except PyErr Json :=
  match j with
  | .obj kvs =>
    match objLookup kvs k with
    | some v => .ok v
    | none => .ok default
  | _ => .error .attributeError

/-- pySub is Python d[k] subscription by string key: KeyError when the key
is absent, TypeError when the receiver is not a dict. -/
def pySub (j : Json) (k : String) : Except PyErr Json :=
  match j with
  | .obj kvs =>
    match objLookup kvs k with
    | some v => .ok v
    | none => .error .keyError
  | _ => .error .typeError

/-- pyIndex is Python xs[i] subscription by non-negative int index:
IndexError when out of range, TypeError when the receiver is not a list
(indexing the other scalar values the record schema can hold fails). -/
def pyIndex (j : Json) (i : Nat) : Except PyErr Json :=
  match j with
  | .arr xs =>
    match xs.get? i with
    | some v => .ok v
    | none => .error .indexError
  | _ => .error .typeError

/-- pyIter is Python iteration (for x in j): the elements of a list, the
keys of a dict, the one-character strings of a string, TypeError otherwise. -/
def pyIter (j : Json) : Except PyErr (List Json) :=
  match j with
  | .arr xs => .ok xs
  | .obj kvs => .ok (kvs.map fun kv => Json.str kv.1)
  | .str s => .ok (s.data.map fun c => Json.str (String.mk [c]))
  | _ => .error .typeError

mutual

/-- pyStr is Python str() as applied during f-string interpolation and in
the metadata construction.  Scalars follow CPython exactly; for the
container cases (which never occur in the scalar record fields the code
formats) CPython would print a repr with quote characters, rendered here
in a JSON-like style, an approximation no theorem depends on. -/
def pyStr (j : Json) : String :=
  match j with
  | .null => "None"
  | .bool true => "True"
  | .bool false => "False"
  | .num n => toString n
  | .str s => s
  | .arr xs => "[" ++ String.intercalate ", " (pyStrList xs) ++ "]"
  | .obj kvs => "\x7b" ++ String.intercalate ", " (pyStrKVs kvs) ++ "\x7d"

/-- pyStrList renders each element of a list value. -/
def pyStrList (xs : List Json) : List String :=
  match xs with
  | [] => []
  | j :: rest => pyStr j :: pyStrList rest

/-- pyStrKVs renders each key/value pair of a dict value. -/
def pyStrKVs (kvs : List (String × Json)) : List String :=
  match kvs with
  | [] => []
  | (k, v) :: rest => (k ++ ": " ++ pyStr v) :: pyStrKVs rest

end

/-- Metadata is the ChromaDB metadata mapping attached to each stored
fragment.  Every value the source stores is a string (each one is built by
str() or json.dumps), so the mapping is an ordered string/string
association list. -/
abbrev Metadata := List (String × String)

/-- metaGetD is Python metadata.get(k, default) on a Metadata mapping. -/
def metaGetD (m : Metadata) (k : String) (default : String) : String :=
  match m with
  | [] => default
  | (k2, v) :: rest => if k2 = k then v else metaGetD rest k default

/-- Processed is the dictionary returned by process_business_card: the four
fragment texts, the shared metadata mapping, and the raw image_base64 value
passed through from the record. -/
structure Processed where
  documents : List String
  metadata : Metadata
  image_base64 : Json

/-- process_business_card translates BusinessCardVectorDB.process_business_card
(search_engine.py lines 133-172).  dumps is the opaque json.dumps.  Binds
are sequenced in CPython evaluation order (the documents list literal first,
then the metadata dict literal in key order, then the result dict), so the
first failing subexpression determines the raised exception, as in the
source; a subexpression the source evaluates twice with the same value is
bound once. -/
def process_business_card (dumps : Json → String) (card_json : Json) :
    Except PyErr Processed := do
  let extracted ← pyGet card_json "extracted_info" (Json.obj [])
  let primary ← pyGet extracted "primary_info" (Json.obj [])
  let contact ← pyGet extracted "contact_info" (Json.obj [])
  let digital ← pyGet extracted "digital_presence" (Json.obj [])
  let contextual ← pyGet extracted "contextual_summary" (Json.obj [])
  -- documents[0]: f-string on primary name/job_title (subscription, not .get),
  -- industry inference and first address; the source has no separator between
  -- the industry value and the following "based in".
  let n1 ← pySub primary "name"
  let nv ← pySub n1 "value"
  let j1 ← pySub primary "job_title"
  let jv ← pySub j1 "value"
  let ind ← pyGet contextual "industry_inference" (Json.str "")
  let a1 ← pyGet contact "addresses" (Json.arr [Json.obj []])
  let a2 ← pyIndex a1 0
  let addrV ← pyGet a2 "value" (Json.str "")
  let doc0 := pyStr nv ++ " is a " ++ pyStr jv ++ " in " ++ pyStr ind ++
    "based in " ++ pyStr addrV ++ "."
  -- documents[1]: contact summary.
  let e1 ← pyGet contact "emails" (Json.arr [Json.obj []])
  let e2 ← pyIndex e1 0
  let emailV ← pyGet e2 "value" (Json.str "")
  let w1 ← pyGet digital "website" (Json.obj [])
  let webV ← pyGet w1 "value" (Json.str "")
  let doc1 := "Contact: " ++ pyStr emailV ++ " | Location: " ++ pyStr addrV ++
    " | Website: " ++ pyStr webV
  -- documents[2]: comma-joined platform:handle pairs (subscription on each entry).
  let sm0 ← pyGet digital "social_media" (Json.arr [])
  let items ← pyIter sm0
  let pairs ← items.mapM fun sm => do
    let p ← pySub sm "platform"
    let h ← pySub sm "handle"
    pure (pyStr p ++ ":" ++ pyStr h)
  let doc2 := "Social media: " ++ String.intercalate ", " pairs
  -- documents[3]: narrative summary.
  let summ ← pyGet contextual "professional_summary" (Json.str "")
  let sen ← pyGet contextual "seniority_estimate" (Json.str "")
  let doc3 := "professional_summary: " ++ pyStr summ ++ " expertise in " ++
    pyStr ind ++ " and " ++ pyStr sen
  -- metadata dict literal, in key order; company and image_metadata are
  -- subscripted (KeyError when absent), the rest default to empty strings.
  let c1 ← pySub primary "company"
  let compT ← pyGet c1 "text_value" (Json.str "")
  let imeta ← pySub card_json "image_metadata"
  let hashV ← pySub imeta "hash"
  let srcJson := dumps card_json
  let b64 ← pySub imeta "base64"
  .ok
    { documents := [doc0, doc1, doc2, doc3]
      metadata :=
        [("name", pyStr nv), ("job_title", pyStr jv), ("company", pyStr compT),
         ("email", pyStr emailV), ("location", pyStr addrV), ("website", pyStr webV),
         ("industry", pyStr ind), ("seniority", pyStr sen),
         ("image_hash", pyStr hashV), ("source_json", srcJson)]
      image_base64 := b64 }

/-- process_query translates BusinessCardVectorDB.process_query
(search_engine.py lines 198-211): the raw query wrapped in the fixed
triple-quoted template; the try/except around pure string formatting can
never fire, so the function is total. -/
def process_query (query : String) : String :=
  "\n            Find business cards matching the following criteria:\n            " ++
  query ++
  "\n            Consider job titles, names, locations, and professional context.\n            "

/-- StoreEntry is one stored fragment in the ChromaDB collection: its
identifier, its document text, and its metadata mapping. -/
structure StoreEntry where
  id : String
  doc : String
  meta : Metadata

/-- Collection models the persistent business_cards ChromaDB collection as
the ordered list of stored fragments. -/
structure Collection where
  entries : List StoreEntry

/-- Collection.allIds is collection.get()["ids"]: every stored fragment
identifier. -/
def Collection.allIds (col : Collection) : List String :=
  col.entries.map (fun e => e.id)

/-- Collection.getMetas is collection.get(ids=..., include=["metadatas"]):
for each requested identifier that resolves in the store, its metadata
mapping; identifiers that do not resolve are omitted, not faulted. -/
def Collection.getMetas (col : Collection) (ids : List String) : List Metadata :=
  ids.filterMap fun i => (col.entries.find? (fun e => e.id == i)).map (fun e => e.meta)

/-- Collection.addOp is collection.add(documents, metadatas, ids) in the
success case: the new fragments appended to the store.  The identifiers
add_business_card passes are assumed fresh where it matters (ChromaDB does
not overwrite an existing identifier). -/
def Collection.addOp (col : Collection) (ids : List String) (docs : List String)
    (metas : List Metadata) : Except PyErr Collection :=
  .ok ⟨col.entries ++ (ids.zip (docs.zip metas)).map fun p => ⟨p.1, p.2.1, p.2.2⟩⟩

/-- stripSlot is card_id = hit_id.rsplit("_", 1)[0] (search_engine.py line
247): everything before the last underscore, or the whole string when there
is no underscore. -/
def stripSlot (s : String) : String :=
  match (s.data.reverse).dropWhile (fun c => c ≠ '_') with
  | [] => s
  | _ :: rest => String.mk rest.reverse

/-- fragmentIds lists the four deterministic per-fragment identifiers
written and fetched for one card identity. -/
def fragmentIds (card_id : String) : List String :=
  [card_id ++ "_0", card_id ++ "_1", card_id ++ "_2", card_id ++ "_3"]

/-- CardData is the dictionary get_card_by_id returns.  original_json is
the raw string "\x7b\x7d" (Sum.inl) in the not-found branch and the parsed
source_json (Sum.inr) in the found branch, matching the two branches of the
source. -/
structure CardData where
  metadata : Metadata
  original_json : Sum String Json
  image_base64 : String

/-- get_card_by_id translates BusinessCardVectorDB.get_card_by_id
(search_engine.py lines 288-312).  loads is the opaque json.loads, with
none standing for a raised json.JSONDecodeError.  When no fragment
identifier resolves it returns the empty-card dictionary; otherwise it
parses the first resolving fragment's source_json with no exception
handler, so a malformed stored card raises out of this function. -/
def get_card_by_id (loads : String → Option Json) (col : Collection)
    (card_id : String) : Except PyErr CardData :=
  match col.getMetas (fragmentIds card_id) with
  | [] => .ok ⟨[], Sum.inl "\x7b\x7d", ""⟩
  | m :: _ =>
    match loads (metaGetD m "source_json" "\x7b\x7d") with
    | none => .error .jsonDecodeError
    | some oj => .ok ⟨m, Sum.inr oj, metaGetD m "image_base64" ""⟩

/-- add_business_card translates BusinessCardVectorDB.add_business_card
(search_engine.py lines 174-196).  colAdd is the collection.add call,
taken as a parameter so that a failing store call can be modelled; the
honest success behavior is Collection.addOp.  There is no exception
handler: a failure of process_business_card or of the store call
propagates to the caller. -/
def add_business_card (dumps : Json → String)
    (colAdd : Collection → List String → List String → List Metadata → Except PyErr Collection)
    (col : Collection) (card_json : Json) : Except PyErr (String × Collection) := do
  let processed ← process_business_card dumps card_json
  -- the metadata mapping always carries name and image_hash when
  -- process_business_card succeeds, so the dict subscriptions cannot fail
  let card_id := metaGetD processed.metadata "name" "" ++ "-" ++
    metaGetD processed.metadata "image_hash" ""
  -- metadatas = [metadata] * len(documents), ids = the four slot identifiers
  let col2 ← colAdd col (fragmentIds card_id) processed.documents
    (List.replicate processed.documents.length processed.metadata)
  .ok (card_id, col2)

/-- Event records one invocation of a latency-bearing opaque external call
made during search: the embedding of the query text (ChromaDB embeds the
query inside collection.query) and the nearest-neighbor query itself with
its requested result count. -/
inductive Event where
  | embed (text : String) : Event
  | nnQuery (text : String) (n : Nat) : Event
deriving DecidableEq, Repr

/-- QueryResult is the dictionary collection.query returns: per-query lists
of hit identifiers and of distances (the code issues exactly one query
text, so index 0 of each is used). -/
structure QueryResult where
  ids : List (List String)
  distances : List (List Rat)

/-- SearchResult is one formatted result of search_cards. -/
structure SearchResult where
  metadata : Metadata
  distance : Rat
  extracted_info : Json

/-- searchLoop translates the aggregation loop of search_cards
(search_engine.py lines 243-282): iterate the raw hits in order with their
indices, strip the slot suffix, skip identities already seen, mark the
identity seen, resolve the card (an exception here is outside the inner
try and aborts the loop), then inside the inner try parse source_json (a
JSONDecodeError skips this card and continues) and read its
extracted_info key (a non-dict parse raises AttributeError, which the
inner handler does not catch), append the formatted result, and stop once
num_results results have been collected. -/
def searchLoop (loads : String → Option Json) (col : Collection)
    (dists : List (List Rat)) (numResults : Nat) :
    List (Nat × String) → List String → List SearchResult → Except PyErr (List SearchResult)
  | [], _, acc => .ok acc
  | (i, hit) :: rest, seen, acc =>
    let card_id := stripSlot hit
    if seen.contains card_id then searchLoop loads col dists numResults rest seen acc
    else
      match get_card_by_id loads col card_id with
      | .error e => .error e
      | .ok card_data =>
        -- the returned dictionary is non-empty and always has a "metadata"
        -- key, so the guard before the inner try is always true
        match loads (metaGetD card_data.metadata "source_json" "\x7b\x7d") with
        | none => searchLoop loads col dists numResults rest (card_id :: seen) acc
        | some parsed =>
          match pyGet parsed "extracted_info" (Json.obj []) with
          | .error e => .error e
          | .ok extractedInfo =>
            let distance := (dists.headD []).getD i 1
            let acc2 := acc ++ [⟨card_data.metadata, distance, extractedInfo⟩]
            if numResults ≤ acc2.length then .ok acc2
            else searchLoop loads col dists numResults rest (card_id :: seen) acc2

/-- search_cards translates BusinessCardVectorDB.search_cards
(search_engine.py lines 213-286).  nn is the opaque
collection.query call (which embeds the query text and performs the
nearest-neighbor lookup); the returned event list records the opaque calls
issued.  The whole body sits in a try whose except-clause catches every
exception and returns the empty list. -/
def search_cards (loads : String → Option Json) (col : Collection)
    (nn : String → Nat → Except PyErr QueryResult) (query : String)
    (numResults : Nat := 5) : List SearchResult × List Event :=
  let pq := process_query query
  let all_ids := col.allIds
  if all_ids.isEmpty then ([], [])
  else
    let k := min (numResults * 4) all_ids.length
    let log := [Event.embed pq, Event.nnQuery pq k]
    match nn pq k with
    | .error _ => ([], log)
    | .ok results =>
      if results.ids.isEmpty then ([], log)
      else
        match searchLoop loads col results.distances numResults
            ((results.ids.headD []).enum) [] [] with
        | .error _ => ([], log)
        | .ok res => (res, log)

/-- goodCardB decides that one card identity aggregates cleanly: resolving
it raises nothing and its stored source_json parses to a dict.  This is the
precondition under which the aggregation loop takes no exception path. -/
def goodCardB (loads : String → Option Json) (col : Collection) (cid : String) : Bool :=
  match get_card_by_id loads col cid with
  | .error _ => false
  | .ok cd =>
    match loads (metaGetD cd.metadata "source_json" "\x7b\x7d") with
    | none => false
    | some parsed =>
      match pyGet parsed "extracted_info" (Json.obj []) with
      | .error _ => false
      | .ok _ => true

/-- hitResult is the formatted result the aggregation loop appends for one
raw hit (index, fragment identifier), with throwaway defaults on the
exception paths the loop never reaches for a good card. -/
def hitResult (loads : String → Option Json) (col : Collection)
    (dists : List (List Rat)) (p : Nat × String) : SearchResult :=
  match get_card_by_id loads col (stripSlot p.2) with
  | .error _ => ⟨[], (dists.headD []).getD p.1 1, Json.obj []⟩
  | .ok cd =>
    match loads (metaGetD cd.metadata "source_json" "\x7b\x7d") with
    | none => ⟨cd.metadata, (dists.headD []).getD p.1 1, Json.obj []⟩
    | some parsed =>
      match pyGet parsed "extracted_info" (Json.obj []) with
      | .error _ => ⟨cd.metadata, (dists.headD []).getD p.1 1, Json.obj []⟩
      | .ok extractedInfo => ⟨cd.metadata, (dists.headD []).getD p.1 1, extractedInfo⟩

/-- dedupFirst is the selection the aggregation loop performs on the raw
hits: drop hits whose stripped identity was already seen, keep the first
hit of each fresh identity, and stop once the running result count reaches
numResults (the loop appends one result and only then checks the bound). -/
def dedupFirst (numResults : Nat) : List (Nat × String) → List String → Nat → List (Nat × String)
  | [], _, _ => []
  | (i, hit) :: rest, seen, count =>
    let cid := stripSlot hit
    if seen.contains cid then dedupFirst numResults rest seen count
    else if numResults ≤ count + 1 then [(i, hit)]
    else (i, hit) :: dedupFirst numResults rest (cid :: seen) (count + 1)

/-! Concrete fixtures used by the witness and counterexample theorems. -/

/-- testDumps is a concrete stand-in for json.dumps: the test record used
by the concrete theorems serializes to the token "R1". -/
def testDumps : Json → String := fun _ => "R1"

/-- fullRec is a fully populated business-card record of the schema the
extraction prompt requests. -/
def fullRec : Json :=
  Json.obj [
    ("image_metadata", Json.obj [("hash", Json.str "abc123"), ("base64", Json.str "IMGB64")]),
    ("extracted_info", Json.obj [
      ("primary_info", Json.obj [
        ("name", Json.obj [("value", Json.str "Ada Lovelace")]),
        ("job_title", Json.obj [("value", Json.str "Engineer")]),
        ("company", Json.obj [("text_value", Json.str "Analytical Engines")])]),
      ("contact_info", Json.obj [
        ("emails", Json.arr [Json.obj [("value", Json.str "ada@example.com")]]),
        ("addresses", Json.arr [Json.obj [("value", Json.str "Paris")]])]),
      ("digital_presence", Json.obj [
        ("website", Json.obj [("value", Json.str "ada.example.com")]),
        ("social_media", Json.arr [Json.obj [("platform", Json.str "linkedin"), ("handle", Json.str "ada")]])]),
      ("contextual_summary", Json.obj [
        ("professional_summary", Json.str "Pioneer of computing."),
        ("industry_inference", Json.str "Tech"),
        ("seniority_estimate", Json.str "Senior")])])]

/-- fullMeta is the metadata mapping process_business_card derives from
fullRec. -/
def fullMeta : Metadata :=
  [("name", "Ada Lovelace"), ("job_title", "Engineer"), ("company", "Analytical Engines"),
   ("email", "ada@example.com"), ("location", "Paris"), ("website", "ada.example.com"),
   ("industry", "Tech"), ("seniority", "Senior"),
   ("image_hash", "abc123"), ("source_json", "R1")]

/-- fullProcessed is the value process_business_card returns on fullRec. -/
def fullProcessed : Processed :=
  { documents :=
      ["Ada Lovelace is a Engineer in Techbased in Paris.",
       "Contact: ada@example.com | Location: Paris | Website: ada.example.com",
       "Social media: linkedin:ada",
       "professional_summary: Pioneer of computing. expertise in Tech and Senior"],
    metadata := fullMeta,
    image_base64 := Json.str "IMGB64" }

/-- exX and exY are the parsed extracted_info payloads of the two stored
test cards. -/
def exX : Json := Json.obj [("who", Json.str "X")]

/-- exY is the extracted_info payload of test card Y. -/
def exY : Json := Json.obj [("who", Json.str "Y")]

/-- testLoads is a concrete stand-in for json.loads covering exactly the
strings the concrete theorems feed it; every other string (for example the
malformed "notjson") raises JSONDecodeError, modelled as none. -/
def testLoads : String → Option Json := fun s =>
  if s = "\x7b\x7d" then some (Json.obj [])
  else if s = "JX" then some (Json.obj [("extracted_info", exX)])
  else if s = "JY" then some (Json.obj [("extracted_info", exY)])
  else if s = "R1" then some fullRec
  else none

/-- metaX is the stored metadata of test card X. -/
def metaX : Metadata := [("name", "X"), ("source_json", "JX")]

/-- metaY is the stored metadata of test card Y. -/
def metaY : Metadata := [("name", "Y"), ("source_json", "JY")]

/-- metaBad is a stored metadata mapping whose source_json does not parse. -/
def metaBad : Metadata := [("name", "X"), ("source_json", "notjson")]

/-- colXY is a store holding the four fragments of each of two healthy
cards X and Y. -/
def colXY : Collection :=
  ⟨[⟨"X_0", "dx0", metaX⟩, ⟨"X_1", "dx1", metaX⟩, ⟨"X_2", "dx2", metaX⟩, ⟨"X_3", "dx3", metaX⟩,
    ⟨"Y_0", "dy0", metaY⟩, ⟨"Y_1", "dy1", metaY⟩, ⟨"Y_2", "dy2", metaY⟩, ⟨"Y_3", "dy3", metaY⟩]⟩

/-- nnEx replays the spec scenario hits: X_2 at distance 0.1, X_0 at 0.3,
Y_1 at 0.2. -/
def nnEx : String → Nat → Except PyErr QueryResult := fun _ _ =>
  .ok ⟨[["X_2", "X_0", "Y_1"]], [[1/10, 3/10, 2/10]]⟩

/-- colMix is a store holding one malformed card X (unparsable
source_json) and one healthy card Y, one fragment each. -/
def colMix : Collection := ⟨[⟨"X_0", "dx0", metaBad⟩, ⟨"Y_0", "dy0", metaY⟩]⟩

/-- nnMix returns the malformed card's hit first and the healthy card's
hit after it. -/
def nnMix : String → Nat → Except PyErr QueryResult := fun _ _ =>
  .ok ⟨[["X_0", "Y_0"]], [[1/10, 2/10]]⟩

/-- nnYonly returns only the healthy card's hit. -/
def nnYonly : String → Nat → Except PyErr QueryResult := fun _ _ =>
  .ok ⟨[["Y_0"]], [[2/10]]⟩

/-- colPart is a store in which exactly one of card X's four fragment
identifiers resolves. -/
def colPart : Collection := ⟨[⟨"X_2", "dx2", metaX⟩]⟩

/-- col12 is a store holding twelve fragments. -/
def col12 : Collection := ⟨(List.range 12).map fun i => ⟨"f" ++ toString i, "d", []⟩⟩

/-- nnFail is a nearest-neighbor call that always fails, modelling an
unreachable vector store. -/
def nnFail : String → Nat → Except PyErr QueryResult := fun _ _ => .error .storeError

/-- adaCol is the store state produced by adding fullRec to an empty
store: the four fragment entries under the derived card identity, each
carrying the shared metadata copy. -/
def adaCol : Collection :=
  ⟨[⟨"Ada Lovelace-abc123_0", "Ada Lovelace is a Engineer in Techbased in Paris.",
      fullMeta⟩,
    ⟨"Ada Lovelace-abc123_1",
      "Contact: ada@example.com | Location: Paris | Website: ada.example.com", fullMeta⟩,
    ⟨"Ada Lovelace-abc123_2", "Social media: linkedin:ada", fullMeta⟩,
    ⟨"Ada Lovelace-abc123_3",
      "professional_summary: Pioneer of computing. expertise in Tech and Senior",
      fullMeta⟩]⟩

/-! Lemmas. -/

theorem except_bind_ok {ε α β : Type} (x : Except ε α) (f : α → Except ε β) (b : β) :
    (x >>= f) = Except.ok b ↔ ∃ a, x = Except.ok a ∧ f a = Except.ok b := by
  cases x with
  | error e => simp [Bind.bind, Except.bind]
  | ok a => simp [Bind.bind, Except.bind]

/-- process_ok_shape characterizes a successful run of
process_business_card: every dictionary access it performs succeeded, and
the result is the literal documents list, metadata mapping and image value
built from the accessed pieces. -/
theorem process_ok_shape (dumps : Json → String) (c : Json) (r : Processed)
    (h : process_business_card dumps c = .ok r) :
    ∃ extracted primary contact digital contextual n1 nv j1 jv ind a1 a2 addrV
      e1 e2 emailV w1 webV sm0 items pairs summ sen c1 compT imeta hashV b64,
      pyGet c "extracted_info" (Json.obj []) = .ok extracted ∧
      pyGet extracted "primary_info" (Json.obj []) = .ok primary ∧
      pyGet extracted "contact_info" (Json.obj []) = .ok contact ∧
      pyGet extracted "digital_presence" (Json.obj []) = .ok digital ∧
      pyGet extracted "contextual_summary" (Json.obj []) = .ok contextual ∧
      pySub primary "name" = .ok n1 ∧ pySub n1 "value" = .ok nv ∧
      pySub primary "job_title" = .ok j1 ∧ pySub j1 "value" = .ok jv ∧
      pyGet contextual "industry_inference" (Json.str "") = .ok ind ∧
      pyGet contact "addresses" (Json.arr [Json.obj []]) = .ok a1 ∧
      pyIndex a1 0 = .ok a2 ∧ pyGet a2 "value" (Json.str "") = .ok addrV ∧
      pyGet contact "emails" (Json.arr [Json.obj []]) = .ok e1 ∧
      pyIndex e1 0 = .ok e2 ∧ pyGet e2 "value" (Json.str "") = .ok emailV ∧
      pyGet digital "website" (Json.obj []) = .ok w1 ∧
      pyGet w1 "value" (Json.str "") = .ok webV ∧
      pyGet digital "social_media" (Json.arr []) = .ok sm0 ∧
      pyIter sm0 = .ok items ∧
      (items.mapM fun sm => do
        let p ← pySub sm "platform"
        let hd ← pySub sm "handle"
        pure (pyStr p ++ ":" ++ pyStr hd)) = .ok pairs ∧
      pyGet contextual "professional_summary" (Json.str "") = .ok summ ∧
      pyGet contextual "seniority_estimate" (Json.str "") = .ok sen ∧
      pySub primary "company" = .ok c1 ∧
      pyGet c1 "text_value" (Json.str "") = .ok compT ∧
      pySub c "image_metadata" = .ok imeta ∧
      pySub imeta "hash" = .ok hashV ∧ pySub imeta "base64" = .ok b64 ∧
      r = { documents :=
              [pyStr nv ++ " is a " ++ pyStr jv ++ " in " ++ pyStr ind ++
                 "based in " ++ pyStr addrV ++ ".",
               "Contact: " ++ pyStr emailV ++ " | Location: " ++ pyStr addrV ++
                 " | Website: " ++ pyStr webV,
               "Social media: " ++ String.intercalate ", " pairs,
               "professional_summary: " ++ pyStr summ ++ " expertise in " ++
                 pyStr ind ++ " and " ++ pyStr sen],
            metadata :=
              [("name", pyStr nv), ("job_title", pyStr jv), ("company", pyStr compT),
               ("email", pyStr emailV), ("location", pyStr addrV), ("website", pyStr webV),
               ("industry", pyStr ind), ("seniority", pyStr sen),
               ("image_hash", pyStr hashV), ("source_json", dumps c)],
            image_base64 := b64 } := by
  simp only [process_business_card, except_bind_ok] at h
  obtain ⟨extracted, he, h⟩ := h
  obtain ⟨primary, hp, h⟩ := h
  obtain ⟨contact, hc, h⟩ := h
  obtain ⟨digital, hdg, h⟩ := h
  obtain ⟨contextual, hcx, h⟩ := h
  obtain ⟨n1, hn1, h⟩ := h
  obtain ⟨nv, hnv, h⟩ := h
  obtain ⟨j1, hj1, h⟩ := h
  obtain ⟨jv, hjv, h⟩ := h
  obtain ⟨ind, hind, h⟩ := h
  obtain ⟨a1, ha1, h⟩ := h
  obtain ⟨a2, ha2, h⟩ := h
  obtain ⟨addrV, haddr, h⟩ := h
  obtain ⟨e1, he1, h⟩ := h
  obtain ⟨e2, he2, h⟩ := h
  obtain ⟨emailV, hemail, h⟩ := h
  obtain ⟨w1, hw1, h⟩ := h
  obtain ⟨webV, hweb, h⟩ := h
  obtain ⟨sm0, hsm0, h⟩ := h
  obtain ⟨items, hitems, h⟩ := h
  obtain ⟨pairs, hpairs, h⟩ := h
  obtain ⟨summ, hsumm, h⟩ := h
  obtain ⟨sen, hsen, h⟩ := h
  obtain ⟨c1, hc1, h⟩ := h
  obtain ⟨compT, hcomp, h⟩ := h
  obtain ⟨imeta, him, h⟩ := h
  obtain ⟨hashV, hhash, h⟩ := h
  obtain ⟨b64, hb64, h⟩ := h
  rw [Except.ok.injEq] at h
  exact ⟨extracted, primary, contact, digital, contextual, n1, nv, j1, jv, ind, a1, a2,
    addrV, e1, e2, emailV, w1, webV, sm0, items, pairs, summ, sen, c1, compT, imeta,
    hashV, b64, he, hp, hc, hdg, hcx, hn1, hnv, hj1, hjv, hind, ha1, ha2, haddr, he1,
    he2, hemail, hw1, hweb, hsm0, hitems, hpairs, hsumm, hsen, hc1, hcomp, him, hhash,
    hb64, h.symm⟩

/-- searchLoop_eq_dedup: when every card identity occurring among the hits
aggregates cleanly, the loop never takes an exception path and returns the
accumulated results extended by one formatted result per hit selected by
dedupFirst. -/
theorem searchLoop_eq_dedup (loads : String → Option Json) (col : Collection)
    (dists : List (List Rat)) (numResults : Nat) (hits : List (Nat × String))
    (seen : List String) (acc : List SearchResult)
    (hgood : ∀ p ∈ hits, goodCardB loads col (stripSlot p.2) = true) :
    searchLoop loads col dists numResults hits seen acc =
      .ok (acc ++ (dedupFirst numResults hits seen acc.length).map (hitResult loads col dists)) := by
  induction hits generalizing seen acc with
  | nil => simp [searchLoop, dedupFirst]
  | cons p rest ih =>
    obtain ⟨i, hit⟩ := p
    have hg := hgood (i, hit) (by simp)
    have hrest : ∀ q ∈ rest, goodCardB loads col (stripSlot q.2) = true :=
      fun q hq => hgood q (List.mem_cons_of_mem _ hq)
    by_cases hseen : seen.contains (stripSlot hit)
    · simp only [searchLoop, dedupFirst, hseen, if_true]
      exact ih _ _ hrest
    · simp only [goodCardB] at hg
      rcases hget : get_card_by_id loads col (stripSlot hit) with e | cd
      · rw [hget] at hg; simp at hg
      · rw [hget] at hg; dsimp only [] at hg
        rcases hl : loads (metaGetD cd.metadata "source_json" "\x7b\x7d") with _ | parsed
        · rw [hl] at hg; simp at hg
        · rw [hl] at hg; dsimp only [] at hg
          rcases hpg : pyGet parsed "extracted_info" (Json.obj []) with e | extractedInfo
          · rw [hpg] at hg; simp at hg
          · have hres : hitResult loads col dists (i, hit) =
                ⟨cd.metadata, (dists.headD []).getD i 1, extractedInfo⟩ := by
              simp only [hitResult, hget, hl, hpg]
            by_cases hquota : numResults ≤ acc.length + 1
            · simp only [searchLoop, dedupFirst, hseen, if_false, Bool.false_eq_true,
                if_neg, hget, hl, hpg, hquota, if_true, List.length_append,
                List.length_cons, List.length_nil, Nat.add_zero, List.map_cons,
                List.map_nil, hres]
            · simp only [searchLoop, dedupFirst, hseen, if_false, Bool.false_eq_true,
                if_neg, hget, hl, hpg, hquota, if_false, List.map_cons, hres]
              rw [if_neg (by simpa using hquota)]
              rw [ih _ _ hrest]
              simp [List.append_assoc]

/-- dedupFirst_sublist: the selected hits are a sublist of the raw hits. -/
theorem dedupFirst_sublist (n : Nat) (hits : List (Nat × String)) (seen : List String)
    (c : Nat) : List.Sublist (dedupFirst n hits seen c) hits := by
  induction hits generalizing seen c with
  | nil => simp [dedupFirst]
  | cons p rest ih =>
    obtain ⟨i, hit⟩ := p
    simp only [dedupFirst]
    split
    · exact (ih _ _).cons _
    · split
      · exact (List.nil_sublist rest).cons₂ _
      · exact (ih _ _).cons₂ _

/-- dedupFirst_nodup: the stripped identities of the selected hits are
pairwise distinct and none of them was already seen. -/
theorem dedupFirst_nodup (n : Nat) (hits : List (Nat × String)) (seen : List String)
    (c : Nat) :
    ((dedupFirst n hits seen c).map fun p => stripSlot p.2).Nodup ∧
    ∀ x ∈ (dedupFirst n hits seen c).map fun p => stripSlot p.2, seen.contains x = false := by
  induction hits generalizing seen c with
  | nil => simp [dedupFirst]
  | cons p rest ih =>
    obtain ⟨i, hit⟩ := p
    simp only [dedupFirst]
    split
    · exact ih _ _
    · rename_i hseen
      split
      · constructor
        · simp
        · intro x hx
          simp only [List.map_cons, List.map_nil, List.mem_cons, List.not_mem_nil,
            or_false] at hx
          subst hx
          exact Bool.eq_false_iff.mpr hseen
      · obtain ⟨ihnd, ihseen⟩ := ih (stripSlot hit :: seen) (c + 1)
        constructor
        · simp only [List.map_cons, List.nodup_cons]
          refine ⟨fun hmem => ?_, ihnd⟩
          have := ihseen _ hmem
          simp [List.contains_cons] at this
        · intro x hx
          simp only [List.map_cons, List.mem_cons] at hx
          rcases hx with rfl | hx
          · exact Bool.eq_false_iff.mpr hseen
          · have := ihseen _ hx
            simp only [List.contains_cons, Bool.or_eq_false_iff] at this
            exact this.2

/-- dedupFirst_first: when the hit indices are strictly increasing, each
selected hit is the earliest hit of its stripped identity, so it carries
the first (and, for distance-sorted hits, closest) occurrence. -/
theorem dedupFirst_first (n : Nat) (hits : List (Nat × String)) (seen : List String)
    (c : Nat) (hps : hits.Pairwise fun p q => p.1 < q.1) :
    ∀ p ∈ dedupFirst n hits seen c,
      seen.contains (stripSlot p.2) = false ∧
      ∀ q ∈ hits, stripSlot q.2 = stripSlot p.2 → p.1 ≤ q.1 := by
  induction hits generalizing seen c with
  | nil => simp [dedupFirst]
  | cons hd rest ih =>
    obtain ⟨k, kd⟩ := hd
    rw [List.pairwise_cons] at hps
    obtain ⟨hlt, hpr⟩ := hps
    simp only [dedupFirst]
    split
    · rename_i hseen
      intro p hp
      obtain ⟨h1, h2⟩ := ih _ _ hpr p hp
      refine ⟨h1, fun q hq hqp => ?_⟩
      rcases List.mem_cons.mp hq with rfl | hq2
      · exfalso
        have hqp2 : stripSlot kd = stripSlot p.2 := hqp
        rw [hqp2, h1] at hseen
        exact Bool.false_ne_true hseen
      · exact h2 q hq2 hqp
    · rename_i hseen
      have head_min : ∀ q ∈ (k, kd) :: rest, stripSlot q.2 = stripSlot kd → k ≤ q.1 := by
        intro q hq _
        rcases List.mem_cons.mp hq with rfl | hq2
        · exact le_refl _
        · exact le_of_lt (hlt q hq2)
      split
      · intro p hp
        simp only [List.mem_cons, List.not_mem_nil, or_false] at hp
        subst hp
        exact ⟨Bool.eq_false_iff.mpr hseen, head_min⟩
      · intro p hp
        rcases List.mem_cons.mp hp with rfl | hp2
        · exact ⟨Bool.eq_false_iff.mpr hseen, head_min⟩
        · obtain ⟨h1, h2⟩ := ih _ _ hpr p hp2
          simp only [List.contains_cons, Bool.or_eq_false_iff] at h1
          refine ⟨h1.2, fun q hq hqp => ?_⟩
          rcases List.mem_cons.mp hq with rfl | hq2
          · exfalso
            have hqp2 : stripSlot kd = stripSlot p.2 := hqp
            have hbeq : (stripSlot p.2 == stripSlot kd) = true := beq_iff_eq.mpr hqp2.symm
            rw [h1.1] at hbeq
            exact Bool.false_ne_true hbeq
          · exact h2 q hq2 hqp

/-- enumFrom_pairwise_fst_lt: the indices in List.enumFrom are strictly
increasing. -/
theorem enumFrom_pairwise_fst_lt {α : Type} (k : Nat) (l : List α) :
    (l.enumFrom k).Pairwise fun p q => p.1 < q.1 := by
  induction l generalizing k with
  | nil => simp [List.enumFrom]
  | cons a rest ih =>
    simp only [List.enumFrom, List.pairwise_cons]
    refine ⟨fun q hq => ?_, ih (k + 1)⟩
    have : k + 1 ≤ q.1 := by
      rcases List.mk_mem_enumFrom_iff_le_and_getElem?_sub.mp (by simpa using hq) with ⟨h, _⟩
      exact h
    omega

/-- enum_pairwise_fst_lt: the indices in List.enum are strictly
increasing. -/
theorem enum_pairwise_fst_lt {α : Type} (l : List α) :
    l.enum.Pairwise fun p q => p.1 < q.1 :=
  enumFrom_pairwise_fst_lt 0 l

/-- fst_lt_length_of_mem_enum: every index occurring in List.enum is below
the list length. -/
theorem fst_lt_length_of_mem_enum {α : Type} {l : List α} {p : Nat × α}
    (hp : p ∈ l.enum) : p.1 < l.length := by
  have := List.mem_enum_iff_getElem?.mp hp
  exact (List.getElem?_eq_some.mp this).1

/-- hitResult_distance: the distance attached to a hit is the entry of the
first distances row at the hit's index, defaulting to 1.0. -/
theorem hitResult_distance (loads : String → Option Json) (col : Collection)
    (dists : List (List Rat)) (p : Nat × String) :
    (hitResult loads col dists p).distance = (dists.headD []).getD p.1 1 := by
  simp only [hitResult]
  rcases get_card_by_id loads col (stripSlot p.2) with e | cd
  · rfl
  · dsimp only []
    rcases loads (metaGetD cd.metadata "source_json" "\x7b\x7d") with _ | parsed
    · rfl
    · dsimp only []
      rcases pyGet parsed "extracted_info" (Json.obj []) with e | ex <;> rfl

/-- sorted_getD_le: in a distance row sorted non-decreasingly, an earlier
in-range entry is at most a later in-range entry. -/
theorem sorted_getD_le (d0 : List Rat) (hs : d0.Pairwise (· ≤ ·)) (i j : Nat)
    (hij : i < j) (hj : j < d0.length) : d0.getD i 1 ≤ d0.getD j 1 := by
  have hi : i < d0.length := lt_trans hij hj
  rw [List.getD_eq_getElem?_getD, List.getD_eq_getElem?_getD,
    List.getElem?_eq_getElem hi, List.getElem?_eq_getElem hj]
  simpa using List.pairwise_iff_get.mp hs ⟨i, hi⟩ ⟨j, hj⟩ hij

/-- search_cards_log: the opaque calls search_cards issues are none when
the store is empty, and otherwise exactly one query embedding followed by
one nearest-neighbor query for min(desired * 4, stored fragment count)
hits, whatever the query call returns. -/
theorem search_cards_log (loads : String → Option Json) (col : Collection)
    (nn : String → Nat → Except PyErr QueryResult) (q : String) (d : Nat) :
    (search_cards loads col nn q d).2 =
      if col.allIds.isEmpty then []
      else [Event.embed (process_query q),
            Event.nnQuery (process_query q) (min (d * 4) col.allIds.length)] := by
  simp only [search_cards]
  split
  · rfl
  · split
    · rfl
    · split
      · rfl
      · split <;> rfl

/-- C8: against a store with zero indexed fragments, search_cards returns
the empty result list as a value, and issues neither an embedding call nor
a nearest-neighbor query. -/
theorem C8_empty_store (loads : String → Option Json)
    (nn : String → Nat → Except PyErr QueryResult) (q : String) (d : Nat)
    (col : Collection) (h : col.entries = []) :
    search_cards loads col nn q d = ([], []) := by
  obtain ⟨entries⟩ := col
  cases h
  rfl

/-- C8 witness: the empty store instance. -/
theorem C8_empty_store_witness :
    (⟨[]⟩ : Collection).entries = [] ∧
      search_cards testLoads ⟨[]⟩ nnEx "designer in africa" 5 = ([], []) :=
  ⟨rfl, C8_empty_store testLoads nnEx "designer in africa" 5 ⟨[]⟩ rfl⟩

/-- C7: over a store holding at least one fragment, search_cards embeds the
processed query and requests exactly min(desired * 4, total stored
fragments) raw nearest-neighbor hits. -/
theorem C7_overfetch (loads : String → Option Json) (col : Collection)
    (nn : String → Nat → Except PyErr QueryResult) (q : String) (d : Nat)
    (h : col.entries ≠ []) :
    (search_cards loads col nn q d).2 =
      [Event.embed (process_query q),
       Event.nnQuery (process_query q) (min (d * 4) col.entries.length)] := by
  rw [search_cards_log]
  obtain ⟨entries⟩ := col
  cases entries with
  | nil => simp at h
  | cons e es => simp [Collection.allIds]

/-- C7 witness: desired = 3 against a twelve-fragment store requests
exactly 12 raw hits. -/
theorem C7_overfetch_witness :
    col12.entries ≠ [] ∧
      (search_cards testLoads col12 nnFail "AI researcher" 3).2 =
        [Event.embed (process_query "AI researcher"),
         Event.nnQuery (process_query "AI researcher") 12] :=
  ⟨by simp [col12], C7_overfetch testLoads col12 nnFail "AI researcher" 3 (by simp [col12])⟩

/-- C10: stripping the slot suffix from a fragment identifier written as
identity ++ "_" ++ i for a slot index i in 0..3 recovers exactly the
identity, even when the identity itself contains underscores (the display
key is the raw extracted name); in particular every fragment identifier
add_business_card writes maps back to its own card identity. -/
theorem C10_strip_roundtrip (c : String) (i : Nat) (h : i < 4) :
    stripSlot (c ++ "_" ++ toString i) = c ∧
    ∀ fid ∈ fragmentIds c, stripSlot fid = c := by
  have key : ∀ d : Char, d ≠ '_' → stripSlot (c ++ String.mk ['_', d]) = c := by
    intro d hd
    obtain ⟨cs⟩ := c
    have hdata : (String.mk cs ++ String.mk ['_', d]).data = cs ++ ['_', d] := rfl
    have h1 : (cs ++ ['_', d]).reverse = d :: '_' :: cs.reverse := by simp
    simp only [stripSlot, hdata, h1, List.dropWhile_cons]
    simp [hd]
  have key4 : ∀ fid ∈ fragmentIds c, stripSlot fid = c := by
    intro fid hfid
    simp only [fragmentIds, List.mem_cons, List.not_mem_nil, or_false] at hfid
    rcases hfid with rfl | rfl | rfl | rfl
    · exact key '0' (by decide)
    · exact key '1' (by decide)
    · exact key '2' (by decide)
    · exact key '3' (by decide)
  refine ⟨?_, key4⟩
  interval_cases i
  · rw [String.append_assoc]; exact key '0' (by decide)
  · rw [String.append_assoc]; exact key '1' (by decide)
  · rw [String.append_assoc]; exact key '2' (by decide)
  · rw [String.append_assoc]; exact key '3' (by decide)

/-- C10 witness: an identity containing underscores round-trips through
the slot-suffix scheme. -/
theorem C10_strip_roundtrip_witness :
    (2 < 4 ∧ stripSlot ("van_der_Berg" ++ "_" ++ toString 2) = "van_der_Berg") ∧
      ∀ fid ∈ fragmentIds "van_der_Berg", stripSlot fid = "van_der_Berg" :=
  ⟨⟨by decide, (C10_strip_roundtrip "van_der_Berg" 2 (by decide)).1⟩,
    (C10_strip_roundtrip "van_der_Berg" 2 (by decide)).2⟩

/-- C1 counterexample: on a record with missing nested keys (here the empty
record), process_business_card does not return fragments and metadata; it
raises KeyError at the non-defensive primary_info name subscription, so the
claimed never-raises behavior is false. -/
theorem C1_counterexample :
    process_business_card testDumps (Json.obj []) = .error PyErr.keyError := rfl

/-- C1 amended: whenever process_business_card returns at all, it returns
exactly 4 fragment strings and a metadata mapping holding precisely the ten
declared scalar keys in order, each with a string value; but records
missing primary_info.name, job_title or company, missing image_metadata,
or carrying present-but-empty contact lists make it raise instead of
degrading to empty strings. -/
theorem C1_process_shape (dumps : Json → String) (c : Json) (r : Processed)
    (h : process_business_card dumps c = .ok r) :
    r.documents.length = 4 ∧
    r.metadata.map Prod.fst =
      ["name", "job_title", "company", "email", "location", "website",
       "industry", "seniority", "image_hash", "source_json"] := by
  obtain ⟨_, _, _, _, _, _, _, _, _, _, _, _, _, _, _, _, _, _, _, _, _, _, _, _, _, _,
    _, _, _, _, _, _, _, _, _, _, _, _, _, _, _, _, _, _, _, _, _, _, _, _, _, _, _, _,
    _, _, hr⟩ := process_ok_shape dumps c r h
  subst hr
  exact ⟨rfl, rfl⟩

/-- C1 witness: a fully populated record flows through and yields the four
fragments and ten keys. -/
theorem C1_process_shape_witness :
    process_business_card testDumps fullRec = .ok fullProcessed ∧
      (fullProcessed.documents.length = 4 ∧
       fullProcessed.metadata.map Prod.fst =
        ["name", "job_title", "company", "email", "location", "website",
         "industry", "seniority", "image_hash", "source_json"]) :=
  ⟨rfl, C1_process_shape testDumps fullRec fullProcessed rfl⟩

/-- C9 counterexample: fragment 0 is not the claimed
"name is a job_title in industry, based in address." string: the source
f-string has no separator between the industry value and "based", so on the
test record the produced fragment differs from the claimed one. -/
theorem C9_counterexample :
    process_business_card testDumps fullRec = .ok fullProcessed ∧
    fullProcessed.documents.headD "" ≠
      "Ada Lovelace is a Engineer in Tech, based in Paris." :=
  ⟨rfl, by decide⟩

/-- C9 amended: fragment 0 is exactly
"name is a job_title in industrybased in address." (no separator between
the industry segment and "based in"), built from the record's extracted
name, job title, inferred industry and first address; name and job title
are accessed by subscription and raise when absent, while industry and
address degrade to empty segments. -/
theorem C9_fragment0 (dumps : Json → String) (c : Json) (r : Processed)
    (h : process_business_card dumps c = .ok r) :
    ∃ extracted primary contact contextual n1 nv j1 jv ind a1 a2 addrV,
      pyGet c "extracted_info" (Json.obj []) = .ok extracted ∧
      pyGet extracted "primary_info" (Json.obj []) = .ok primary ∧
      pyGet extracted "contact_info" (Json.obj []) = .ok contact ∧
      pyGet extracted "contextual_summary" (Json.obj []) = .ok contextual ∧
      pySub primary "name" = .ok n1 ∧ pySub n1 "value" = .ok nv ∧
      pySub primary "job_title" = .ok j1 ∧ pySub j1 "value" = .ok jv ∧
      pyGet contextual "industry_inference" (Json.str "") = .ok ind ∧
      pyGet contact "addresses" (Json.arr [Json.obj []]) = .ok a1 ∧
      pyIndex a1 0 = .ok a2 ∧ pyGet a2 "value" (Json.str "") = .ok addrV ∧
      r.documents.headD "" =
        pyStr nv ++ " is a " ++ pyStr jv ++ " in " ++ pyStr ind ++
          "based in " ++ pyStr addrV ++ "." := by
  obtain ⟨ext, prim, cont, dig, ctx, n1, nv, j1, jv, ind, a1, a2, addrV, _, _, _, _, _,
    _, _, _, _, _, _, _, _, _, _, he, hp, hc, _, hcx, hn1, hnv, hj1, hjv, hind, ha1,
    ha2, haddr, _, _, _, _, _, _, _, _, _, _, _, _, _, _, _, hr⟩ :=
    process_ok_shape dumps c r h
  subst hr
  exact ⟨ext, prim, cont, ctx, n1, nv, j1, jv, ind, a1, a2, addrV, he, hp, hc, hcx,
    hn1, hnv, hj1, hjv, hind, ha1, ha2, haddr, rfl⟩

/-- C9 witness: the amended fragment-0 format instantiated on the test
record. -/
theorem C9_fragment0_witness :
    process_business_card testDumps fullRec = .ok fullProcessed ∧
      (∃ extracted primary contact contextual n1 nv j1 jv ind a1 a2 addrV,
        pyGet fullRec "extracted_info" (Json.obj []) = .ok extracted ∧
        pyGet extracted "primary_info" (Json.obj []) = .ok primary ∧
        pyGet extracted "contact_info" (Json.obj []) = .ok contact ∧
        pyGet extracted "contextual_summary" (Json.obj []) = .ok contextual ∧
        pySub primary "name" = .ok n1 ∧ pySub n1 "value" = .ok nv ∧
        pySub primary "job_title" = .ok j1 ∧ pySub j1 "value" = .ok jv ∧
        pyGet contextual "industry_inference" (Json.str "") = .ok ind ∧
        pyGet contact "addresses" (Json.arr [Json.obj []]) = .ok a1 ∧
        pyIndex a1 0 = .ok a2 ∧ pyGet a2 "value" (Json.str "") = .ok addrV ∧
        fullProcessed.documents.headD "" =
          pyStr nv ++ " is a " ++ pyStr jv ++ " in " ++ pyStr ind ++
            "based in " ++ pyStr addrV ++ ".") :=
  ⟨rfl, C9_fragment0 testDumps fullRec fullProcessed rfl⟩

/-- C4 counterexample: a failing nearest-neighbor store call during
search_cards is not propagated: the outer exception handler converts it
into the normal empty result sequence, contrary to the claim. -/
theorem C4_counterexample :
    (search_cards testLoads colXY nnFail "designer" 2).1 = [] := rfl

/-- C4 amended: a failing store call during indexing propagates out of
add_business_card unchanged (there is no handler), but search_cards
catches every exception of its body and returns the empty result list, so
a store failure during search is converted into a normal empty result. -/
theorem C4_store_failure :
    (∀ (dumps : Json → String) (col : Collection) (c : Json) (e : PyErr) (p : Processed),
      process_business_card dumps c = .ok p →
        add_business_card dumps (fun _ _ _ _ => .error e) col c = .error e) ∧
    (∀ (loads : String → Option Json) (col : Collection)
      (nn : String → Nat → Except PyErr QueryResult) (q : String) (d : Nat),
      (∀ s n, nn s n = .error .storeError) → (search_cards loads col nn q d).1 = []) := by
  constructor
  · intro dumps col c e p hproc
    simp [add_business_card, hproc, Bind.bind, Except.bind]
  · intro loads col nn q d hfail
    simp only [search_cards]
    split
    · rfl
    · simp only [hfail]

/-- C4 witness: the two amended behaviors instantiated on the test record
and test store. -/
theorem C4_store_failure_witness :
    (process_business_card testDumps fullRec = .ok fullProcessed ∧
      add_business_card testDumps (fun _ _ _ _ => .error .storeError) ⟨[]⟩ fullRec =
        .error .storeError) ∧
    ((∀ s n, nnFail s n = .error .storeError) ∧
      (search_cards testLoads colXY nnFail "designer" 2).1 = []) :=
  ⟨⟨rfl, C4_store_failure.1 testDumps ⟨[]⟩ fullRec .storeError fullProcessed rfl⟩,
   ⟨fun _ _ => rfl, C4_store_failure.2 testLoads colXY nnFail "designer" 2 fun _ _ => rfl⟩⟩

/-- C5 counterexample: with exactly one of card X's four fragment
identifiers resolving, get_card_by_id does not return the explicit
empty/not-found dictionary; it fabricates a complete card view from the
one resolving fragment's metadata. -/
theorem C5_counterexample :
    (fragmentIds "X").countP (fun i => (colPart.entries.find? (fun e => e.id == i)).isSome) = 1 ∧
    get_card_by_id testLoads colPart "X" =
      .ok ⟨metaX, Sum.inr (Json.obj [("extracted_info", exX)]), ""⟩ ∧
    (Except.ok (⟨metaX, Sum.inr (Json.obj [("extracted_info", exX)]), ""⟩ : CardData) :
        Except PyErr CardData) ≠
      .ok ⟨[], Sum.inl "\x7b\x7d", ""⟩ :=
  ⟨rfl, rfl, by simp [metaX]⟩

/-- C5 amended: get_card_by_id returns the explicit empty-card value only
when zero of the four fragment identifiers resolve; whenever at least one
resolves (and its source_json parses), it returns a complete card built
from the first resolving fragment's metadata, performing no detection of
missing sibling fragments. -/
theorem C5_get_behavior (loads : String → Option Json) (col : Collection) (cid : String) :
    (col.getMetas (fragmentIds cid) = [] →
      get_card_by_id loads col cid = .ok ⟨[], Sum.inl "\x7b\x7d", ""⟩) ∧
    (∀ m rest j, col.getMetas (fragmentIds cid) = m :: rest →
      loads (metaGetD m "source_json" "\x7b\x7d") = some j →
      get_card_by_id loads col cid = .ok ⟨m, Sum.inr j, metaGetD m "image_base64" ""⟩) := by
  constructor
  · intro h
    simp [get_card_by_id, h]
  · intro m rest j h hl
    simp [get_card_by_id, h, hl]

/-- C5 witness: the found-branch behavior instantiated on the
one-fragment store. -/
theorem C5_get_behavior_witness :
    (colPart.getMetas (fragmentIds "X") = [metaX] ∧
      testLoads (metaGetD metaX "source_json" "\x7b\x7d") =
        some (Json.obj [("extracted_info", exX)])) ∧
    get_card_by_id testLoads colPart "X" =
      .ok ⟨metaX, Sum.inr (Json.obj [("extracted_info", exX)]),
        metaGetD metaX "image_base64" ""⟩ :=
  ⟨⟨rfl, rfl⟩,
    (C5_get_behavior testLoads colPart "X").2 metaX []
      (Json.obj [("extracted_info", exX)]) rfl rfl⟩

/-- C3: evaluating search_cards at the failing input.  A stored card whose
source_json does not parse raises inside get_card_by_id, before the
aggregation loop's inner try; the outer handler then discards everything
and returns the empty list, losing the healthy card Y that the second
conjunct shows is perfectly retrievable on its own.  The inner
JSONDecodeError handler meant to skip just the malformed card is
unreachable for it. -/
theorem C3_malformed_aborts :
    (search_cards testLoads colMix nnMix "designer" 5).1 = [] ∧
    (search_cards testLoads colMix nnYonly "designer" 5).1 = [⟨metaY, 2/10, exY⟩] :=
  ⟨rfl, rfl⟩

/-- append_left_cancel_str: appending to a common prefix is injective on
the suffix. -/
theorem append_left_cancel_str (s : String) {a b : String} (h : s ++ a = s ++ b) :
    a = b := by
  have hd : s.data ++ a.data = s.data ++ b.data := by
    have h2 := congrArg String.data h
    simpa [String.data_append] using h2
  exact String.ext (List.append_cancel_left hd)

/-- beq_append_false: distinct suffixes on a common prefix compare
unequal. -/
theorem beq_append_false (s : String) {a b : String} (h : a ≠ b) :
    (s ++ a == s ++ b) = false :=
  beq_eq_false_iff_ne.mpr fun he => h (append_left_cancel_str s he)

/-- getMetas_fresh_append: fetching the four fragment identifiers of a card
over a store whose preexisting entries use none of those identifiers
returns the four just-written metadata copies. -/
theorem getMetas_fresh_append (colE : List StoreEntry) (cid d0 d1 d2 d3 : String)
    (m : Metadata)
    (hfresh : ∀ fid ∈ fragmentIds cid, ∀ e ∈ colE, e.id ≠ fid) :
    Collection.getMetas
      ⟨colE ++ [⟨cid ++ "_0", d0, m⟩, ⟨cid ++ "_1", d1, m⟩,
        ⟨cid ++ "_2", d2, m⟩, ⟨cid ++ "_3", d3, m⟩]⟩ (fragmentIds cid) =
      [m, m, m, m] := by
  have hold : ∀ fid ∈ fragmentIds cid, colE.find? (fun e => e.id == fid) = none := by
    intro fid hfid
    rw [List.find?_eq_none]
    intro e he
    simpa using hfresh fid hfid e he
  have h0 := hold (cid ++ "_0") (by simp [fragmentIds])
  have h1 := hold (cid ++ "_1") (by simp [fragmentIds])
  have h2 := hold (cid ++ "_2") (by simp [fragmentIds])
  have h3 := hold (cid ++ "_3") (by simp [fragmentIds])
  have n01 : ((cid ++ "_0") == (cid ++ "_1")) = false := beq_append_false cid (by decide)
  have n02 : ((cid ++ "_0") == (cid ++ "_2")) = false := beq_append_false cid (by decide)
  have n03 : ((cid ++ "_0") == (cid ++ "_3")) = false := beq_append_false cid (by decide)
  have n12 : ((cid ++ "_1") == (cid ++ "_2")) = false := beq_append_false cid (by decide)
  have n13 : ((cid ++ "_1") == (cid ++ "_3")) = false := beq_append_false cid (by decide)
  have n23 : ((cid ++ "_2") == (cid ++ "_3")) = false := beq_append_false cid (by decide)
  simp [Collection.getMetas, fragmentIds, List.find?_append, h0, h1, h2, h3,
    List.find?_cons, n01, n02, n03, n12, n13, n23]

/-- C6: after add_business_card persists a record into a store not already
holding the card's fragment identifiers, get_card_by_id on the returned
identity yields metadata whose source_json is exactly the serialized
record, deserializing back to the original record. -/
theorem C6_roundtrip (dumps : Json → String) (loads : String → Option Json)
    (col : Collection) (record : Json) (cid : String) (col2 : Collection)
    (hadd : add_business_card dumps Collection.addOp col record = .ok (cid, col2))
    (hfresh : ∀ fid ∈ fragmentIds cid, ∀ e ∈ col.entries, e.id ≠ fid)
    (hload : loads (dumps record) = some record) :
    ∃ cd, get_card_by_id loads col2 cid = .ok cd ∧
      metaGetD cd.metadata "source_json" "\x7b\x7d" = dumps record ∧
      cd.original_json = Sum.inr record := by
  simp only [add_business_card, except_bind_ok] at hadd
  obtain ⟨p, hproc, hadd⟩ := hadd
  obtain ⟨col2v, haddop, hpair⟩ := hadd
  obtain ⟨_, _, _, _, _, _, nv, _, jv, ind, _, _, addrV, _, _, emailV, _, webV, _, _,
    pairs, summ, sen, _, compT, _, hashV, b64,
    _, _, _, _, _, _, _, _, _, _, _, _, _, _, _, _, _, _, _, _, _, _, _, _, _, _, _,
    _, hr⟩ := process_ok_shape dumps record p hproc
  subst hr
  simp only [Except.ok.injEq, Prod.mk.injEq] at hpair
  obtain ⟨hcid, hcol⟩ := hpair
  simp only [Collection.addOp, Except.ok.injEq] at haddop
  subst haddop
  subst hcol
  subst hcid
  set m : Metadata :=
    [("name", pyStr nv), ("job_title", pyStr jv), ("company", pyStr compT),
     ("email", pyStr emailV), ("location", pyStr addrV), ("website", pyStr webV),
     ("industry", pyStr ind), ("seniority", pyStr sen),
     ("image_hash", pyStr hashV), ("source_json", dumps record)] with hm
  have hsrc : metaGetD m "source_json" "\x7b\x7d" = dumps record := by
    simp [hm, metaGetD]
  have hmetas := getMetas_fresh_append col.entries
    (metaGetD m "name" "" ++ "-" ++ metaGetD m "image_hash" "")
    (pyStr nv ++ " is a " ++ pyStr jv ++ " in " ++ pyStr ind ++
      "based in " ++ pyStr addrV ++ ".")
    ("Contact: " ++ pyStr emailV ++ " | Location: " ++ pyStr addrV ++
      " | Website: " ++ pyStr webV)
    ("Social media: " ++ String.intercalate ", " pairs)
    ("professional_summary: " ++ pyStr summ ++ " expertise in " ++
      pyStr ind ++ " and " ++ pyStr sen)
    m hfresh
  refine ⟨⟨m, Sum.inr record, metaGetD m "image_base64" ""⟩, ?_, hsrc, rfl⟩
  show get_card_by_id loads
    ⟨col.entries ++
      [⟨(metaGetD m "name" "" ++ "-" ++ metaGetD m "image_hash" "") ++ "_0",
        pyStr nv ++ " is a " ++ pyStr jv ++ " in " ++ pyStr ind ++
          "based in " ++ pyStr addrV ++ ".", m⟩,
       ⟨(metaGetD m "name" "" ++ "-" ++ metaGetD m "image_hash" "") ++ "_1",
        "Contact: " ++ pyStr emailV ++ " | Location: " ++ pyStr addrV ++
          " | Website: " ++ pyStr webV, m⟩,
       ⟨(metaGetD m "name" "" ++ "-" ++ metaGetD m "image_hash" "") ++ "_2",
        "Social media: " ++ String.intercalate ", " pairs, m⟩,
       ⟨(metaGetD m "name" "" ++ "-" ++ metaGetD m "image_hash" "") ++ "_3",
        "professional_summary: " ++ pyStr summ ++ " expertise in " ++
          pyStr ind ++ " and " ++ pyStr sen, m⟩]⟩
    (metaGetD m "name" "" ++ "-" ++ metaGetD m "image_hash" "") =
    .ok ⟨m, Sum.inr record, metaGetD m "image_base64" ""⟩
  simp only [get_card_by_id, hmetas, hsrc, hload]

/-- C6 witness: the round trip instantiated on the test record over an
initially empty store. -/
theorem C6_roundtrip_witness :
    (add_business_card testDumps Collection.addOp ⟨[]⟩ fullRec =
        .ok ("Ada Lovelace-abc123", adaCol) ∧
      (∀ fid ∈ fragmentIds "Ada Lovelace-abc123",
        ∀ e ∈ (⟨[]⟩ : Collection).entries, e.id ≠ fid) ∧
      testLoads (testDumps fullRec) = some fullRec) ∧
    ∃ cd, get_card_by_id testLoads adaCol "Ada Lovelace-abc123" = .ok cd ∧
      metaGetD cd.metadata "source_json" "\x7b\x7d" = testDumps fullRec ∧
      cd.original_json = Sum.inr fullRec :=
  ⟨⟨rfl, by simp, rfl⟩,
    C6_roundtrip testDumps testLoads ⟨[]⟩ fullRec "Ada Lovelace-abc123" adaCol rfl
      (by simp) rfl⟩

/-- C2: the aggregation loop, run on raw hits whose first distances row is
sorted non-decreasingly and covers the hits, over a store in which every
hit identity aggregates cleanly, emits at most one result per stripped
card identity (later duplicate hits of an already-emitted card are
discarded); each emitted result carries the distance of the card's
earliest (hence closest) hit, and the emitted distances are
non-decreasing.  Second conjunct: the spec scenario, hits X_2 at 0.1, X_0
at 0.3, Y_1 at 0.2 with desired 2, yields exactly X at 0.1 then Y at
0.2. -/
theorem C2_aggregate :
    (∀ (loads : String → Option Json) (col : Collection) (dists : List (List Rat))
       (numResults : Nat) (ids : List String) (res : List SearchResult),
      (ids.all fun i => goodCardB loads col (stripSlot i)) = true →
      (dists.headD []).Pairwise (· ≤ ·) →
      ids.length ≤ (dists.headD []).length →
      searchLoop loads col dists numResults ids.enum [] [] = .ok res →
      ∃ sel : List (Nat × String),
        List.Sublist sel ids.enum ∧
        res = sel.map (hitResult loads col dists) ∧
        (sel.map fun p => stripSlot p.2).Nodup ∧
        (∀ p ∈ sel, ∀ q ∈ ids.enum, stripSlot q.2 = stripSlot p.2 → p.1 ≤ q.1) ∧
        (res.map SearchResult.distance).Pairwise (· ≤ ·)) ∧
    (search_cards testLoads colXY nnEx "AI designer" 2).1 =
      [⟨metaX, 1/10, exX⟩, ⟨metaY, 2/10, exY⟩] := by
  constructor
  · intro loads col dists numResults ids res hgood hsorted hlen hrun
    have hgood2 : ∀ p ∈ ids.enum, goodCardB loads col (stripSlot p.2) = true := by
      intro p hp
      have hmem : p.2 ∈ ids := by
        have := List.mem_enum_iff_getElem?.mp hp
        exact List.getElem?_mem this
      exact List.all_eq_true.mp hgood _ hmem
    rw [searchLoop_eq_dedup loads col dists numResults ids.enum [] [] hgood2] at hrun
    simp only [List.nil_append, List.length_nil, Except.ok.injEq] at hrun
    refine ⟨dedupFirst numResults ids.enum [] 0, dedupFirst_sublist _ _ _ _,
      hrun.symm, (dedupFirst_nodup _ _ _ _).1, ?_, ?_⟩
    · intro p hp q hq hqp
      exact ((dedupFirst_first numResults ids.enum [] 0 (enum_pairwise_fst_lt ids))
        p hp).2 q hq hqp
    · rw [hrun.symm, List.map_map]
      have hfun : (SearchResult.distance ∘ hitResult loads col dists) =
          fun p : Nat × String => (dists.headD []).getD p.1 1 :=
        funext fun p => hitResult_distance loads col dists p
      rw [hfun]
      have hselpw : (dedupFirst numResults ids.enum [] 0).Pairwise
          (fun p q : Nat × String => p.1 < q.1) :=
        List.Pairwise.sublist (dedupFirst_sublist numResults ids.enum [] 0) (enum_pairwise_fst_lt ids)
      have hmem : ∀ p ∈ dedupFirst numResults ids.enum [] 0,
          p.1 < (dists.headD []).length := fun p hp =>
        lt_of_lt_of_le
          (fst_lt_length_of_mem_enum
            ((dedupFirst_sublist numResults ids.enum [] 0).subset hp)) hlen
      refine List.pairwise_map.mpr ?_
      refine List.Pairwise.imp_of_mem ?_ hselpw
      intro a b ha hb hab
      exact sorted_getD_le _ hsorted _ _ hab (hmem b hb)
  · rfl

/-- C2 witness: the loop contract instantiated on distance-sorted hits
X_0 at 0.1 then Y_1 at 0.2 over the healthy two-card store. -/
theorem C2_aggregate_witness :
    ((["X_0", "Y_1"].all fun i => goodCardB testLoads colXY (stripSlot i)) = true ∧
      ([[(1 : Rat)/10, 1/5]].headD []).Pairwise (· ≤ ·) ∧
      ["X_0", "Y_1"].length ≤ ([[(1 : Rat)/10, 1/5]].headD []).length ∧
      searchLoop testLoads colXY [[(1 : Rat)/10, 1/5]] 2 (["X_0", "Y_1"].enum) [] [] =
        .ok [⟨metaX, 1/10, exX⟩, ⟨metaY, 1/5, exY⟩]) ∧
    ∃ sel : List (Nat × String),
      List.Sublist sel (["X_0", "Y_1"].enum) ∧
      [(⟨metaX, 1/10, exX⟩ : SearchResult), ⟨metaY, 1/5, exY⟩] =
        sel.map (hitResult testLoads colXY [[(1 : Rat)/10, 1/5]]) ∧
      (sel.map fun p => stripSlot p.2).Nodup ∧
      (∀ p ∈ sel, ∀ q ∈ (["X_0", "Y_1"].enum),
        stripSlot q.2 = stripSlot p.2 → p.1 ≤ q.1) ∧
      (([(⟨metaX, 1/10, exX⟩ : SearchResult), ⟨metaY, 1/5, exY⟩]).map
        SearchResult.distance).Pairwise (· ≤ ·) :=
  ⟨⟨rfl, by norm_num, by norm_num, rfl⟩,
    C2_aggregate.1 testLoads colXY [[(1 : Rat)/10, 1/5]] 2 ["X_0", "Y_1"]
      [⟨metaX, 1/10, exX⟩, ⟨metaY, 1/5, exY⟩] rfl (by norm_num) (by norm_num) rfl⟩

end BusinessCard
